import Mathlib

/-!
# OptiServer: reverse proxy, static folder handler, listeners and JSON encoder

A shallow embedding of `optiserver.go`.  The handlers are straight-line Go
code over collaborators that live outside the repository (the fasthttp
client, the filesystem, the listeners, the injected handlers).  Every such
collaborator is a parameter of the embedded function; every call to one is
recorded in an explicit trace, in program order.
-/

namespace OptiServer

/-! ## Status codes and header constants -/

/-- Status `fasthttp.StatusOK` / `http.StatusOK`. -/
def StatusOK : Nat := 200

/-- Status `http.StatusNotModified`. -/
def StatusNotModified : Nat := 304

/-- Status `fasthttp.StatusBadGateway`. -/
def StatusBadGateway : Nat := 502

/-- Constant `ContentBinary`. -/
def ContentBinary : String := "application/octet-stream"

/-- Constant `ContentJSON`. -/
def ContentJSON : String := "application/json"

/-- Constant `ContentText`. -/
def ContentText : String := "text/plain"

/-! ## The fasthttp side: `ReverseProxy` -/

/-- A `fasthttp.Response`: raw status field (0 while unset), headers, body. -/
structure Response where
  statusCode : Nat := 0
  header : List (String × String) := []
  body : String := ""
  deriving DecidableEq, Repr

/-- Accessor `Response.StatusCode()`: an unset status reads as 200. -/
def Response.StatusCode (r : Response) : Nat :=
  if r.statusCode = 0 then StatusOK else r.statusCode

/-- Result of `fasthttp.AcquireResponse()`: a blank response. -/
def AcquireResponse : Response := {}

/-- A `fasthttp.Request` as the proxy uses it: only the request URI is ever set. -/
structure Request where
  requestURI : String := ""
  deriving DecidableEq, Repr

/-- Result of `fasthttp.AcquireRequest()`: a blank request. -/
def AcquireRequest : Request := {}

/-- Method `Request.SetRequestURIBytes`. -/
def Request.SetRequestURIBytes (_req : Request) (uri : String) : Request :=
  { requestURI := uri }

/-- A `fasthttp.RequestCtx`: the inbound full URI, the response under
construction for the client, and the lines written to `ctx.Logger()`. -/
structure RequestCtx where
  fullURI : String := ""
  response : Response := {}
  logged : List String := []
  deriving DecidableEq, Repr

/-- Method `ctx.SetStatusCode`. -/
def RequestCtx.SetStatusCode (ctx : RequestCtx) (code : Nat) : RequestCtx :=
  { ctx with response := { ctx.response with statusCode := code } }

/-- Method `ctx.SetContentType`: replaces the Content-Type header. -/
def RequestCtx.SetContentType (ctx : RequestCtx) (ct : String) : RequestCtx :=
  { ctx with response := { ctx.response with
      header := (ctx.response.header.filter (fun kv => kv.1 != "Content-Type"))
                  ++ [("Content-Type", ct)] } }

/-- Method `ctx.Write` / `ctx.WriteString`: appends to the response body. -/
def RequestCtx.Write (ctx : RequestCtx) (data : String) : RequestCtx :=
  { ctx with response := { ctx.response with body := ctx.response.body ++ data } }

/-- Method `ctx.Logger().Printf` with the already formatted line. -/
def RequestCtx.Printf (ctx : RequestCtx) (line : String) : RequestCtx :=
  { ctx with logged := ctx.logged ++ [line] }

/-- A `fasthttp.HostClient`, of which the proxy sets only `Addr`. -/
structure HostClient where
  Addr : String
  deriving DecidableEq, Repr

/-- A `fasthttp.LBClient`: the pool of host clients. -/
structure LBClient where
  Clients : List HostClient := []
  deriving DecidableEq, Repr

/-- What one call `lbc.Do(req, resp)` leaves behind: the returned error
(`none` for `nil`) and the contents of `resp` after the call. -/
structure DoResult where
  err : Option String
  resp : Response
  deriving DecidableEq, Repr

/-- The world behind the fasthttp client library: the outcome of a call
`lbc.Do(req, resp)` on a non-empty pool.  It is a parameter: backend
selection, the wire exchange and the library's internals are not part of
this repository. -/
structure Upstream where
  Do : LBClient → Request → Response → DoResult

/-- Call `lbc.Do`: the library panics on an empty pool (`none`), otherwise it
performs one load-balanced dispatch. -/
def LBClient.Do (net : Upstream) (lbc : LBClient) (req : Request) (resp : Response) :
    Option DoResult :=
  if lbc.Clients.isEmpty then none else some (net.Do lbc req resp)

/-- How a handler invocation ends. -/
inductive Exit where
  | returned
  | panicked
  deriving DecidableEq, Repr

/-- Everything observable of one invocation of the proxy handler: the client
context when the handler stops, the dispatches it issued (in order), and how
it stopped. -/
structure ProxyRun where
  ctx : RequestCtx
  dispatched : List (LBClient × Request)
  exit : Exit
  deriving DecidableEq, Repr

/-- The pool built by the loop at the top of `ReverseProxy`. -/
def buildPool (upstreams : List String) : LBClient :=
  upstreams.foldl (fun lbc addr => { Clients := lbc.Clients ++ [{ Addr := addr }] }) {}

/-- The log line of `ctx.Logger().Printf("unexpected status code: %d. Expecting %d", ...)`. -/
def unexpectedStatusLine (code : Nat) : String :=
  "unexpected status code: " ++ toString code ++ ". Expecting " ++ toString StatusOK

/-- The handler returned by `Application.ReverseProxy(upstreams)`, applied to
one request context. -/
def ReverseProxy (net : Upstream) (upstreams : List String) (ctx : RequestCtx) : ProxyRun :=
  let lbc := buildPool upstreams
  let req := AcquireRequest
  let resp := AcquireResponse
  let req := req.SetRequestURIBytes ctx.fullURI
  match lbc.Do net req resp with
  | none => { ctx := ctx, dispatched := [(lbc, req)], exit := Exit.panicked }
  | some r =>
    let ctx := if r.err.isSome then ctx.SetStatusCode StatusBadGateway else ctx
    let resp := r.resp
    let ctx :=
      if resp.StatusCode ≠ StatusOK then
        (ctx.SetStatusCode StatusBadGateway).Printf (unexpectedStatusLine resp.StatusCode)
      else ctx
    { ctx := ctx, dispatched := [(lbc, req)], exit := Exit.returned }

/-- The status the client receives: `ctx.Response.StatusCode()`. -/
def ProxyRun.clientStatus (run : ProxyRun) : Nat := run.ctx.response.StatusCode

/-- A context as the server hands it to a handler: nothing written yet. -/
def freshCtx (uri : String) : RequestCtx := { fullURI := uri }

/-- An upstream world with one fixed answer to every dispatch. -/
def constUpstream (r : DoResult) : Upstream := { Do := fun _ _ _ => r }

/-! ## Package `path`: `Join`, `Clean`, `Ext` -/

/-- Split a path at every slash (empty components are kept). -/
def splitSlash : List Char → List (List Char)
  | [] => [[]]
  | c :: cs =>
    match splitSlash cs with
    | [] => [[c]]
    | hd :: tl => if c = '/' then [] :: hd :: tl else (c :: hd) :: tl

/-- One step of `path.Clean` over the output built so far (`out`, last element
first): empty and `.` elements vanish, `..` removes the preceding real
element, is dropped at the root of a rooted path and is kept otherwise. -/
def cleanStep (rooted : Bool) (out : List (List Char)) (elem : List Char) : List (List Char) :=
  if elem = [] ∨ elem = ['.'] then out
  else if elem = ['.', '.'] then
    match out with
    | [] => if rooted then [] else [elem]
    | top :: rest => if top = ['.', '.'] then elem :: top :: rest else rest
  else elem :: out

/-- Function `path.Clean`: the shortest path equivalent to the argument. -/
def pathClean (p : List Char) : List Char :=
  match p with
  | [] => ['.']
  | c :: _ =>
    let rooted : Bool := c = '/'
    let out := ((splitSlash p).foldl (cleanStep rooted) []).reverse
    let body := List.intercalate ['/'] out
    if rooted then '/' :: body else if body = [] then ['.'] else body

/-- Function `path.Join` on two elements: empty elements are ignored, the rest
is joined with a slash and cleaned; all empty gives the empty string. -/
def pathJoin (a b : String) : String :=
  if a = "" ∧ b = "" then ""
  else if a = "" then String.mk (pathClean b.data)
  else String.mk (pathClean (a.data ++ '/' :: b.data))

/-- Scan of `path.Ext` from the end of the path: `rev` is the reversed path,
`acc` the characters already passed. -/
def extScan : List Char → List Char → List Char
  | [], _ => []
  | c :: rest, acc =>
    if c = '/' then [] else if c = '.' then c :: acc else extScan rest (c :: acc)

/-- Function `path.Ext`: the suffix starting at the last dot of the last element. -/
def pathExt (p : String) : String := String.mk (extScan p.data.reverse [])

/-- Confinement to a root folder: the path is the root or lies below it. -/
def confined (root p : String) : Bool :=
  p = root || (root.data ++ ['/']).isPrefixOf p.data

/-! ## Package `time`: instants, `Format` and `Parse` in the layout
`"Mon, 2 Jan 2006 15:04:05 MST"` -/

/-- A `time.Time`: the instant (seconds since the Unix epoch and nanoseconds
within the second) and the zone it is presented in (abbreviation and offset
east of UTC, in seconds). -/
structure Time where
  sec : Int
  nsec : Nat := 0
  zone : String := "UTC"
  offset : Int := 0
  deriving DecidableEq, Repr

/-- Method `Time.Equal`: same instant, whatever the zone. -/
def Time.Equal (t u : Time) : Bool := t.sec = u.sec && t.nsec = u.nsec

/-- Civil date of a day number (days since 1970-01-01): year, month, day. -/
def civilFromDays (days : Int) : Int × Nat × Nat :=
  let z := days + 719468
  let era := z / 146097
  let doe := (z - era * 146097).toNat
  let yoe := (doe - doe / 1460 + doe / 36524 - doe / 146096) / 365
  let doy := doe - (365 * yoe + yoe / 4 - yoe / 100)
  let mp := (5 * doy + 2) / 153
  let d := doy - (153 * mp + 2) / 5 + 1
  let m := if mp < 10 then mp + 3 else mp - 9
  let y : Int := (yoe : Int) + era * 400
  (if m ≤ 2 then y + 1 else y, m, d)

/-- Day number (days since 1970-01-01) of a civil date. -/
def daysFromCivil (year : Int) (month day : Nat) : Int :=
  let y := if month ≤ 2 then year - 1 else year
  let era := y / 400
  let yoe := (y - era * 400).toNat
  let mp := if month > 2 then month - 3 else month + 9
  let doy := (153 * mp + 2) / 5 + day - 1
  let doe := yoe * 365 + yoe / 4 - yoe / 100 + doy
  era * 146097 + (doe : Int) - 719468

/-- Table `shortDayNames`. -/
def shortDayNames : List String := ["Sun", "Mon", "Tue", "Wed", "Thu", "Fri", "Sat"]

/-- Table `shortMonthNames`. -/
def shortMonthNames : List String :=
  ["Jan", "Feb", "Mar", "Apr", "May", "Jun", "Jul", "Aug", "Sep", "Oct", "Nov", "Dec"]

/-- Decimal digits of a natural number, zero-padded on the left to `width`. -/
def padNat (n width : Nat) : String :=
  let ds := Nat.toDigits 10 n
  String.mk (List.replicate (width - ds.length) '0' ++ ds)

/-- Helper `appendInt` of package time: sign, then zero-padded digits. -/
def appendInt (x : Int) (width : Nat) : String :=
  if x < 0 then "-" ++ padNat x.natAbs width else padNat x.natAbs width

/-- Zone text printed for `MST`: the abbreviation, or `±hhmm` when there is none. -/
def formatZone (t : Time) : String :=
  if t.zone ≠ "" then t.zone
  else
    let zone := t.offset / 60
    (if zone < 0 then "-" else "+") ++ padNat (zone.natAbs / 60) 2 ++ padNat (zone.natAbs % 60) 2

/-- Method `t.Format(modifiedLayout)` for
`modifiedLayout = "Mon, 2 Jan 2006 15:04:05 MST"`. -/
def Time.Format (t : Time) : String :=
  let abs := t.sec + t.offset
  let days := abs / 86400
  let secs := (abs % 86400).toNat
  let ymd := civilFromDays days
  let wd := ((days + 4) % 7).toNat
  shortDayNames.getD wd "" ++ ", " ++ toString ymd.2.2 ++ " "
    ++ shortMonthNames.getD (ymd.2.1 - 1) "" ++ " " ++ appendInt ymd.1 4 ++ " "
    ++ padNat (secs / 3600) 2 ++ ":" ++ padNat (secs % 3600 / 60) 2 ++ ":"
    ++ padNat (secs % 60) 2 ++ " " ++ formatZone t

/-- Digit value of a decimal digit character. -/
def digitVal (c : Char) : Nat := c.toNat - 48

/-- Helper `getnum` of package time: one or two digits (exactly two when `fixed`). -/
def getnum (s : List Char) (fixed : Bool) : Option (Nat × List Char) :=
  match s with
  | [] => none
  | [c1] => if !c1.isDigit || fixed then none else some (digitVal c1, [])
  | c1 :: c2 :: rest =>
    if !c1.isDigit then none
    else if !c2.isDigit then (if fixed then none else some (digitVal c1, c2 :: rest))
    else some (digitVal c1 * 10 + digitVal c2, rest)

/-- Helper `match` of package time: equality of two strings of the same
length up to the case of ASCII letters. -/
def matchFold : List Char → List Char → Bool
  | [], [] => true
  | c1 :: s1, c2 :: s2 =>
    (c1 = c2 || (c1.toLower = c2.toLower && c1.toLower.isLower)) && matchFold s1 s2
  | _, _ => false

/-- Helper `lookup` of package time: index of the first table entry that the
value starts with (case folded), and the rest of the value. -/
def lookupName : List String → Nat → List Char → Option (Nat × List Char)
  | [], _, _ => none
  | v :: tab, i, val =>
    if v.length ≤ val.length ∧ matchFold (val.take v.length) v.data then
      some (i, val.drop v.length)
    else lookupName tab (i + 1) val

/-- Value of a run of decimal digits. -/
def digitsVal (ds : List Char) : Nat := ds.foldl (fun n c => n * 10 + digitVal c) 0

/-- Helper `parseSignedOffset`: length of a leading `+h`/`-h` offset with at
most 23 hours, 0 when there is none. -/
def parseSignedOffset (value : List Char) : Nat :=
  match value with
  | [] => 0
  | sign :: rest =>
    if sign ≠ '-' ∧ sign ≠ '+' then 0
    else
      let ds := rest.takeWhile Char.isDigit
      if ds = [] then 0 else if digitsVal ds > 23 then 0 else 1 + ds.length

/-- Helper `parseTimeZone`: length of the zone abbreviation the value starts
with, if it starts with something that looks like one. -/
def parseTimeZone (value : List Char) : Option Nat :=
  if value.length < 3 then none
  else if value.take 4 = "ChST".data ∨ value.take 4 = "MeST".data then some 4
  else if value.take 3 = "GMT".data then
    some (if value.length = 3 then 3 else 3 + parseSignedOffset (value.drop 3))
  else if value.head? = some '+' ∨ value.head? = some '-' then
    (if parseSignedOffset value > 0 then some (parseSignedOffset value) else none)
  else
    let nUpper := ((value.take 6).takeWhile Char.isUpper).length
    if nUpper = 5 then (if value.get? 4 = some 'T' then some 5 else none)
    else if nUpper = 4 then
      (if value.get? 3 = some 'T' ∨ value.take 4 = "WITA".data then some 4 else none)
    else if nUpper = 3 then some 3
    else none

/-- Helper `daysIn` of package time. -/
def daysIn (month : Nat) (year : Int) : Nat :=
  if month = 2 then
    (if year % 4 = 0 ∧ (year % 100 ≠ 0 ∨ year % 400 = 0) then 29 else 28)
  else if month = 4 ∨ month = 6 ∨ month = 9 ∨ month = 11 then 30
  else 31

/-- Helper `cutspace` of package time: drop the leading spaces. -/
def cutspace : List Char → List Char
  | [] => []
  | c :: cs => if c = ' ' then cutspace cs else c :: cs

/-- The loop of helper `skip` of package time, one iteration per unit of fuel:
a space of the literal stands for a run of spaces (the value must be at its
end or start with a space; the runs of both are dropped), any other character
of the literal must be the next character of the value. -/
def skipLoop : Nat → List Char → List Char → Option (List Char)
  | _, value, [] => some value
  | 0, _, _ :: _ => none
  | fuel + 1, value, p :: lit =>
    if p = ' ' then
      (match value with
       | [] => skipLoop fuel [] (cutspace lit)
       | c :: cs => if c ≠ ' ' then none else skipLoop fuel (cutspace cs) (cutspace lit))
    else
      (match value with
       | [] => none
       | c :: cs => if c = p then skipLoop fuel cs lit else none)

/-- Helper `skip` of package time: remove the literal text of the layout from
the front of the value, treating runs of spaces as equivalent.  Every
iteration of the loop consumes a character of the literal, so its length is
fuel enough. -/
def skip (value : List Char) (lit : String) : Option (List Char) :=
  skipLoop lit.length value lit.data

/-- Fraction of a second that may follow the seconds in the value although the
layout has none: a comma or period and digits, read as nanoseconds. -/
def parseFraction (value : List Char) : Nat × List Char :=
  match value with
  | sep :: d :: rest =>
    if (sep = '.' ∨ sep = ',') ∧ d.isDigit then
      let ds := (d :: rest).takeWhile Char.isDigit
      let ds9 := ds.take 9
      (digitsVal ds9 * 10 ^ (9 - ds9.length), (d :: rest).drop ds.length)
    else (0, value)
  | _ => (0, value)

/-- The date part of the layout, `Mon, 2 Jan 2006`: day, month, year and the
rest of the value.  The weekday is read and not checked against the date. -/
def parseDate (value : List Char) : Option (Nat × Nat × Int × List Char) :=
  (lookupName shortDayNames 0 value).bind fun wd =>
  (skip wd.2 ", ").bind fun v =>
  (getnum v false).bind fun d =>
  (skip d.2 " ").bind fun v =>
  (lookupName shortMonthNames 0 v).bind fun m =>
  (skip m.2 " ").bind fun v =>
  if v.length < 4 ∨ ¬ (v.take 4).all Char.isDigit then none
  else some (d.1, m.1 + 1, (digitsVal (v.take 4) : Int), v.drop 4)

/-- The clock part of the layout, `15:04:05`: hour, minute, second,
nanoseconds and the rest of the value. -/
def parseClock (value : List Char) : Option (Nat × Nat × Nat × Nat × List Char) :=
  (getnum value false).bind fun h =>
  if 24 ≤ h.1 then none else
  (skip h.2 ":").bind fun v =>
  (getnum v true).bind fun mi =>
  if 60 ≤ mi.1 then none else
  (skip mi.2 ":").bind fun v =>
  (getnum v true).bind fun s =>
  if 60 ≤ s.1 then none else
  some (h.1, mi.1, s.1, (parseFraction s.2).1, (parseFraction s.2).2)

/-- The zone part of the layout, `MST`: whether it is `UTC`, the abbreviation
and the rest of the value. -/
def parseZone (v : List Char) : Option (Bool × String × List Char) :=
  if v.take 3 = "UTC".data then some (true, "UTC", v.drop 3)
  else (parseTimeZone v).map (fun n => (false, String.mk (v.take n), v.drop n))

/-- Offset of the zone fabricated for an abbreviation the local location does
not know: `GMT±h` is h hours, anything else zero. -/
def fabricatedOffset (zoneName : String) : Int :=
  if zoneName.length > 3 ∧ zoneName.data.take 3 = "GMT".data then
    (match zoneName.data.drop 3 with
     | '-' :: ds => - (digitsVal ds : Int) * 3600
     | _ :: ds => (digitsVal ds : Int) * 3600
     | [] => 0)
  else 0

/-- The local location as `time.Parse` consults it: the offsets (seconds east
of UTC) of the zone abbreviations it knows. -/
abbrev Location := List (String × Int)

/-- Function `time.Parse(modifiedLayout, value)` for
`modifiedLayout = "Mon, 2 Jan 2006 15:04:05 MST"`; `none` stands for a
non-nil error.  An abbreviation known to the local location takes its offset,
`UTC` is UTC, any other abbreviation gives a fabricated zone. -/
def timeParse (loc : Location) (value : String) : Option Time :=
  (parseDate value.data).bind fun dt =>
  (skip dt.2.2.2 " ").bind fun v =>
  (parseClock v).bind fun ck =>
  (skip ck.2.2.2.2 " ").bind fun v =>
  (parseZone v).bind fun z =>
  if z.2.2 ≠ [] then none
  else if dt.1 < 1 ∨ dt.1 > daysIn dt.2.1 dt.2.2.1 then none
  else
    let wall : Int :=
      daysFromCivil dt.2.2.1 dt.2.1 dt.1 * 86400 + ck.1 * 3600 + ck.2.1 * 60 + ck.2.2.1
    let nsec := ck.2.2.2.1
    if z.1 then some { sec := wall, nsec := nsec, zone := "UTC", offset := 0 }
    else
      match loc.lookup z.2.1 with
      | some off => some { sec := wall - off, nsec := nsec, zone := z.2.1, offset := off }
      | none => some { sec := wall, nsec := nsec, zone := z.2.1, offset := fabricatedOffset z.2.1 }

/-! ## The net/http side: `Application`, `New`, `StaticFolder` -/

/-- An `http.Request` as the static handler reads it: `r.URL.RawPath` and the
header fields (keys in canonical form, as the server stores them). -/
structure HttpRequest where
  RawPath : String := ""
  Header : List (String × String) := []
  deriving DecidableEq, Repr

/-- Method `r.Header.Get`: the first value of the key, empty when absent. -/
def HttpRequest.HeaderGet (r : HttpRequest) (key : String) : String :=
  (r.Header.lookup key).getD ""

/-- An `http.ResponseWriter`: the header map (in order of addition), the
status once it is written, and the body bytes written. -/
structure ResponseWriter where
  header : List (String × String) := []
  status : Option Nat := none
  body : String := ""
  deriving DecidableEq, Repr

/-- Call `w.Header().Add(key, value)`. -/
def ResponseWriter.HeaderAdd (w : ResponseWriter) (key value : String) : ResponseWriter :=
  { w with header := w.header ++ [(key, value)] }

/-- Call `w.WriteHeader(code)`: only the first status counts. -/
def ResponseWriter.WriteHeader (w : ResponseWriter) (code : Nat) : ResponseWriter :=
  if w.status.isSome then w else { w with status := some code }

/-- Call `w.Write(data)`: an implicit `WriteHeader(200)`, then the bytes. -/
def ResponseWriter.Write (w : ResponseWriter) (data : String) : ResponseWriter :=
  let w := w.WriteHeader StatusOK
  { w with body := w.body ++ data }

/-- Values of a header key, in order of addition. -/
def ResponseWriter.HeaderValues (w : ResponseWriter) (key : String) : List String :=
  (w.header.filter (fun kv => kv.1 = key)).map Prod.snd

/-- The status the client sees: 200 when the handler never wrote one. -/
def ResponseWriter.clientStatus (w : ResponseWriter) : Nat := w.status.getD StatusOK

/-- The writer the server hands to a handler for a new request. -/
def newResponseWriter : ResponseWriter := {}

/-- An `os.FileInfo`, of which the handler reads `ModTime()`. -/
structure FileInfo where
  ModTime : Time
  deriving DecidableEq, Repr

/-- An opened `*os.File` as `io.Copy` sees it: the bytes it delivers, and
whether the copy then stops with an error instead of end of file. -/
structure File where
  contents : String := ""
  copyErr : Bool := false
  deriving DecidableEq, Repr

/-- The filesystem: `os.Stat` and `os.Open`, `none` for a non-nil error. -/
structure FileSystem where
  Stat : String → Option FileInfo
  Open : String → Option File

/-- What the static handler takes from outside the repository: the
filesystem, `mime.TypeByExtension`, and the local time location. -/
structure Env where
  fs : FileSystem
  TypeByExtension : String → String
  Local : Location := []

/-- An injected `http.HandlerFunc`, known by its name only: what it does with
the writer it is given is not code of this repository. -/
structure HandlerFunc where
  name : String
  deriving DecidableEq, Repr

/-- The type `Configuration`. -/
structure Configuration where
  Debug : Bool
  TLS : Bool
  DomainName : String
  HTTPPort : Int
  HTTPSPort : Int
  Host : String
  ChainPath : String
  KeyPath : String
  deriving DecidableEq, Repr

/-- Function `DefaultConfiguration`. -/
def DefaultConfiguration : Configuration :=
  { Debug := true
    TLS := false
    DomainName := ""
    HTTPPort := 8080
    HTTPSPort := 8443
    Host := "0.0.0.0"
    ChainPath := ""
    KeyPath := "" }

/-- A `*zap.Logger`, known by its name only. -/
structure Logger where
  name : String
  deriving DecidableEq, Repr

/-- A `*fasthttprouter.Router`, known by its name only. -/
structure Router where
  name : String
  deriving DecidableEq, Repr

/-- The type `Application`; a nil pointer field is `none`. -/
structure Application where
  Config : Configuration
  Logger : Logger
  Router : Router
  NotFoundHandler : Option HandlerFunc := none
  ErrorHandler : Option HandlerFunc := none
  deriving DecidableEq, Repr

/-- Function `New`, given the result of `zap.NewProduction()` and the router
`fasthttprouter.New()` returns. -/
def New (zapNewProduction : Except String Logger) (router : Router) :
    Except String Application :=
  match zapNewProduction with
  | Except.error err => Except.error err
  | Except.ok logger => Except.ok { Config := DefaultConfiguration, Logger := logger, Router := router }

/-- One call the static handler makes to the outside, in program order. -/
inductive Event where
  | stat (path : String)
  | openFile (path : String)
  | closeFile (path : String)
  | serveHTTP (h : HandlerFunc) (w : ResponseWriter) (r : HttpRequest)
  deriving DecidableEq, Repr

/-- Everything observable of one invocation of the static handler: the writer
as the handler's own calls leave it, its calls to the outside, how it stopped. -/
structure Served where
  w : ResponseWriter
  trace : List Event
  exit : Exit
  deriving DecidableEq, Repr

/-- Call `h.ServeHTTP(w, r)` through a `*http.HandlerFunc` field: a nil pointer
panics, otherwise the collaborator is invoked with this writer and request. -/
def ServeHTTP (h : Option HandlerFunc) (w : ResponseWriter) (r : HttpRequest)
    (trace : List Event) : Served :=
  match h with
  | none => { w := w, trace := trace, exit := Exit.panicked }
  | some f => { w := w, trace := trace ++ [Event.serveHTTP f w r], exit := Exit.returned }

/-- Call `strconv.FormatUint(n, 10)`. -/
def FormatUint (n : Nat) : String := String.mk (Nat.toDigits 10 n)

/-- The static handler from `// set mimetype` to its end: Content-Type,
Last-Modified, open, copy; the deferred `file.Close()` runs on every exit
after a successful open.  The call `io.Copy(w, file)` writes to `w` only the
bytes it has read: it makes no `Write` when the file delivers none. -/
def serveFile (env : Env) (a : Application) (filepath : String) (stat : FileInfo)
    (w : ResponseWriter) (r : HttpRequest) : Served :=
  let mimetype := env.TypeByExtension (pathExt r.RawPath)
  let w := if mimetype.length > 0 then w.HeaderAdd "Content-Type" mimetype else w
  let w := w.HeaderAdd "Last-Modified" stat.ModTime.Format
  match env.fs.Open filepath with
  | none => ServeHTTP a.ErrorHandler w r [Event.stat filepath, Event.openFile filepath]
  | some file =>
    let w := if file.contents = "" then w else w.Write file.contents
    if file.copyErr then
      let s := ServeHTTP a.ErrorHandler w r [Event.stat filepath, Event.openFile filepath]
      { s with trace := s.trace ++ [Event.closeFile filepath] }
    else
      { w := w
        trace := [Event.stat filepath, Event.openFile filepath, Event.closeFile filepath]
        exit := Exit.returned }

/-- The handler returned by `Application.StaticFolder(folderpath, cacheTimeSeconds)`,
applied to one writer and request. -/
def StaticFolder (env : Env) (a : Application) (folderpath : String) (cacheTimeSeconds : Nat)
    (w : ResponseWriter) (r : HttpRequest) : Served :=
  let filepath := pathJoin folderpath r.RawPath
  match env.fs.Stat filepath with
  | none => ServeHTTP a.NotFoundHandler w r [Event.stat filepath]
  | some stat =>
    let w := w.HeaderAdd "Cache-Control" ("max-age=" ++ FormatUint cacheTimeSeconds)
    let modified := r.HeaderGet "If-Modified-Since"
    if modified.length > 0 then
      match timeParse env.Local modified with
      | some ifTime =>
        if stat.ModTime.Equal ifTime then
          { w := w.WriteHeader StatusNotModified, trace := [Event.stat filepath],
            exit := Exit.returned }
        else serveFile env a filepath stat w r
      | none => serveFile env a filepath stat w r
    else serveFile env a filepath stat w r

/-! ## `Application.Run` -/

/-- The handler value a listener is started with: `a.Router.Handler` itself,
or `fasthttpadaptor.NewHTTPHandler(a.Router.Handler)`. -/
inductive ServedHandler where
  | routerHandler (r : Router)
  | adapted (r : Router)
  deriving DecidableEq, Repr

/-- The router behind a handler value. -/
def ServedHandler.router : ServedHandler → Router
  | ServedHandler.routerHandler r => r
  | ServedHandler.adapted r => r

/-- One call `Run` makes to the outside, in program order. -/
inductive RunEvent where
  | logInfo (msg : String)
  | httpListenAndServe (addr : String) (h : ServedHandler)
  | fasthttpListenAndServe (addr : String) (h : ServedHandler)
  | listenAndServeQUIC (addr certFile keyFile : String) (h : ServedHandler)
  deriving DecidableEq, Repr

/-- The three blocking listener calls, by address: `none` when the call
serves forever, `some none` when it returns nil, `some (some e)` when it
returns the error `e`. -/
structure Listeners where
  httpListenAndServe : String → Option (Option String)
  fasthttpListenAndServe : String → Option (Option String)
  listenAndServeQUIC : String → Option (Option String)

/-- What `Run` does: its calls to the outside, and its return value (`none`
when it never returns, `some none` for nil, `some (some e)` for an error). -/
structure RunResult where
  trace : List RunEvent
  ret : Option (Option String)
  deriving DecidableEq, Repr

/-- Call `strconv.Itoa`. -/
def Itoa (i : Int) : String :=
  if i < 0 then "-" ++ String.mk (Nat.toDigits 10 i.natAbs) else String.mk (Nat.toDigits 10 i.natAbs)

/-- Method `Application.Run`. -/
def Application.Run (net : Listeners) (a : Application) : RunResult :=
  let t0 := [RunEvent.logInfo "Starting Server"]
  if a.Config.TLS = false then
    let addr := a.Config.Host ++ ":" ++ Itoa a.Config.HTTPPort
    let t1 := t0 ++ [RunEvent.httpListenAndServe addr (ServedHandler.adapted a.Router)]
    match net.httpListenAndServe addr with
    | none => { trace := t1, ret := none }
    | some (some err2) => { trace := t1, ret := some (some err2) }
    | some none => { trace := t1, ret := some none }
  else
    let addr := a.Config.Host ++ ":" ++ Itoa a.Config.HTTPPort
    let t1 := t0 ++ [RunEvent.fasthttpListenAndServe addr (ServedHandler.routerHandler a.Router)]
    match net.fasthttpListenAndServe addr with
    | none => { trace := t1, ret := none }
    | some (some err) => { trace := t1, ret := some (some err) }
    | some none =>
      let addr2 := a.Config.Host ++ ":" ++ Itoa a.Config.HTTPSPort
      let t2 := t1 ++ [RunEvent.listenAndServeQUIC addr2 "/path/to/cert/chain.pem"
                        "/path/to/privkey.pem" (ServedHandler.adapted a.Router)]
      match net.listenAndServeQUIC addr2 with
      | none => { trace := t2, ret := none }
      | some (some err) => { trace := t2, ret := some (some err) }
      | some none => { trace := t2, ret := some none }

/-- Whether the run starts the secure listener on `addr` with this certificate
chain and key, serving this router. -/
def startsSecure (res : RunResult) (addr chain key : String) (router : Router) : Bool :=
  res.trace.any fun e =>
    match e with
    | RunEvent.listenAndServeQUIC a c k h => a = addr && c = chain && k = key && h.router = router
    | _ => false

/-- Whether the run starts a cleartext listener on `addr`, serving this router. -/
def startsCleartext (res : RunResult) (addr : String) (router : Router) : Bool :=
  res.trace.any fun e =>
    match e with
    | RunEvent.fasthttpListenAndServe a h => a = addr && h.router = router
    | RunEvent.httpListenAndServe a h => a = addr && h.router = router
    | _ => false

/-! ## The response encoder `JSON` -/

/-- A JSON value: what a Go value looks like to a structural encoder and what
a decoder returns.  Numbers are integers; object members keep their order. -/
inductive JVal where
  | null
  | bool (b : Bool)
  | num (n : Int)
  | str (s : String)
  | arr (items : List JVal)
  | obj (members : List (String × JVal))
  deriving Repr

/-- Hexadecimal digit of a number below 16. -/
def hexDigit (n : Nat) : Char := (Nat.toDigits 16 n).headD '0'

/-- The escape `\u00XX` of a character with code below 256. -/
def escapeU (c : Char) : List Char :=
  ['\\', 'u', '0', '0', hexDigit (c.toNat / 16), hexDigit (c.toNat % 16)]

/-- One character of a string as `encoding/json` writes it (HTML escaping on). -/
def encodeChar (c : Char) : List Char :=
  if c = '"' then ['\\', '"']
  else if c = '\\' then ['\\', '\\']
  else if c = '\n' then ['\\', 'n']
  else if c = '\r' then ['\\', 'r']
  else if c = '\t' then ['\\', 't']
  else if c.toNat < 32 ∨ c = '<' ∨ c = '>' ∨ c = '&' then escapeU c
  else [c]

/-- A string literal as `encoding/json` writes it. -/
def encodeString (s : String) : List Char :=
  '"' :: (s.data.flatMap encodeChar ++ ['"'])

mutual
/-- The compact JSON text of a value. -/
def encodeValue : JVal → List Char
  | JVal.null => "null".data
  | JVal.bool b => if b then "true".data else "false".data
  | JVal.num n => (Itoa n).data
  | JVal.str s => encodeString s
  | JVal.arr items => '[' :: (encodeItems items ++ [']'])
  | JVal.obj members => '{' :: (encodeMembers members ++ ['}'])
/-- The items of an array, comma separated. -/
def encodeItems : List JVal → List Char
  | [] => []
  | [v] => encodeValue v
  | v :: w :: rest => encodeValue v ++ ',' :: encodeItems (w :: rest)
/-- The members of an object, comma separated. -/
def encodeMembers : List (String × JVal) → List Char
  | [] => []
  | [(k, v)] => encodeString k ++ ':' :: encodeValue v
  | (k, v) :: m :: rest => encodeString k ++ ':' :: encodeValue v ++ ',' :: encodeMembers (m :: rest)
end

/-- Call `json.NewEncoder(w).Encode(v)`: the compact text and a newline. -/
def jsonEncode (v : JVal) : String := String.mk (encodeValue v ++ ['\n'])

/-- Skip JSON whitespace. -/
def skipWs : List Char → List Char
  | c :: cs => if c = ' ' ∨ c = '\n' ∨ c = '\r' ∨ c = '\t' then skipWs cs else c :: cs
  | [] => []

/-- Value of a hexadecimal digit. -/
def hexVal (c : Char) : Option Nat :=
  if c.isDigit then some (c.toNat - 48)
  else if 'a' ≤ c ∧ c ≤ 'f' then some (c.toNat - 87)
  else if 'A' ≤ c ∧ c ≤ 'F' then some (c.toNat - 55)
  else none

/-- The rest of a string literal after its opening quote: the decoded
characters and what follows the closing quote. -/
def parseStringBody : List Char → List Char → Option (String × List Char)
  | [], _ => none
  | '"' :: rest, acc => some (String.mk acc.reverse, rest)
  | '\\' :: 'u' :: a :: b :: c :: d :: rest, acc =>
    match hexVal a, hexVal b, hexVal c, hexVal d with
    | some x, some y, some z, some w =>
      parseStringBody rest (Char.ofNat (((x * 16 + y) * 16 + z) * 16 + w) :: acc)
    | _, _, _, _ => none
  | '\\' :: e :: rest, acc =>
    if e = '"' then parseStringBody rest ('"' :: acc)
    else if e = '\\' then parseStringBody rest ('\\' :: acc)
    else if e = '/' then parseStringBody rest ('/' :: acc)
    else if e = 'n' then parseStringBody rest ('\n' :: acc)
    else if e = 'r' then parseStringBody rest ('\r' :: acc)
    else if e = 't' then parseStringBody rest ('\t' :: acc)
    else if e = 'b' then parseStringBody rest (Char.ofNat 8 :: acc)
    else if e = 'f' then parseStringBody rest (Char.ofNat 12 :: acc)
    else none
  | c :: rest, acc => if c.toNat < 32 ∨ c = '\\' then none else parseStringBody rest (c :: acc)

/-- An integer literal at the head of the input. -/
def parseNumber (cs : List Char) : Option (Int × List Char) :=
  match cs with
  | '-' :: rest =>
    let ds := rest.takeWhile Char.isDigit
    if ds = [] ∨ (ds.length > 1 ∧ ds.head? = some '0') then none
    else some (- (digitsVal ds : Int), rest.drop ds.length)
  | _ =>
    let ds := cs.takeWhile Char.isDigit
    if ds = [] ∨ (ds.length > 1 ∧ ds.head? = some '0') then none
    else some ((digitsVal ds : Int), cs.drop ds.length)

mutual
/-- One JSON value at the head of the input (after whitespace), and the rest. -/
def parseValue : Nat → List Char → Option (JVal × List Char)
  | 0, _ => none
  | fuel + 1, cs =>
    match skipWs cs with
    | 'n' :: 'u' :: 'l' :: 'l' :: rest => some (JVal.null, rest)
    | 't' :: 'r' :: 'u' :: 'e' :: rest => some (JVal.bool true, rest)
    | 'f' :: 'a' :: 'l' :: 's' :: 'e' :: rest => some (JVal.bool false, rest)
    | '"' :: rest => (parseStringBody rest []).map fun sr => (JVal.str sr.1, sr.2)
    | '[' :: rest =>
      (match skipWs rest with
       | ']' :: after => some (JVal.arr [], after)
       | _ => (parseItems fuel rest []).map fun ir => (JVal.arr ir.1, ir.2))
    | '{' :: rest =>
      (match skipWs rest with
       | '}' :: after => some (JVal.obj [], after)
       | _ => (parseMembers fuel rest []).map fun mr => (JVal.obj mr.1, mr.2))
    | other => (parseNumber other).map fun nr => (JVal.num nr.1, nr.2)
/-- The items of a non-empty array up to and including the closing bracket. -/
def parseItems : Nat → List Char → List JVal → Option (List JVal × List Char)
  | 0, _, _ => none
  | fuel + 1, cs, acc =>
    match parseValue fuel cs with
    | none => none
    | some (v, rest) =>
      match skipWs rest with
      | ',' :: more => parseItems fuel more (v :: acc)
      | ']' :: after => some ((v :: acc).reverse, after)
      | _ => none
/-- The members of a non-empty object up to and including the closing brace. -/
def parseMembers : Nat → List Char → List (String × JVal) → Option (List (String × JVal) × List Char)
  | 0, _, _ => none
  | fuel + 1, cs, acc =>
    match skipWs cs with
    | '"' :: rest =>
      (match parseStringBody rest [] with
       | none => none
       | some (k, afterKey) =>
         match skipWs afterKey with
         | ':' :: valueText =>
           (match parseValue fuel valueText with
            | none => none
            | some (v, afterValue) =>
              match skipWs afterValue with
              | ',' :: more => parseMembers fuel more ((k, v) :: acc)
              | '}' :: after => some (((k, v) :: acc).reverse, after)
              | _ => none)
         | _ => none)
    | _ => none
end

/-- Decoding of a JSON document: one value, then nothing but whitespace;
`none` when the text is not a JSON document. -/
def jsonDecode (doc : String) : Option JVal :=
  match parseValue (doc.length + 1) doc.data with
  | some (v, rest) => if skipWs rest = [] then some v else none
  | none => none

/-- The `data interface{}` argument of `JSON`: the value as the structural
encoder `encoding/json` sees it, and, when its dynamic type implements
`easyjson.Marshaler`, the text its own `MarshalEasyJSON` writes. -/
structure Data where
  value : JVal
  marshalEasyJSON : Option String := none

/-- The body stream writer of `JSON`: the text it writes to the buffer. -/
def jsonBodyWriter (data : Data) : String :=
  match data.marshalEasyJSON with
  | some easydata => easydata
  | none => jsonEncode data.value

/-- Call `ctx.SetBodyStreamWriter(fn)`: the body is what `fn` writes. -/
def RequestCtx.SetBodyStreamWriter (ctx : RequestCtx) (written : String) : RequestCtx :=
  { ctx with response := { ctx.response with body := written } }

/-- Function `JSON`. -/
def JSON (ctx : RequestCtx) (statusCode : Nat) (data : Data) : RequestCtx :=
  let ctx := ctx.SetContentType ContentJSON
  let ctx := ctx.SetStatusCode statusCode
  ctx.SetBodyStreamWriter (jsonBodyWriter data)

/-- Function `Binary`. -/
def Binary (ctx : RequestCtx) (statusCode : Nat) (data : String) : RequestCtx :=
  ((ctx.SetContentType ContentBinary).SetStatusCode statusCode).Write data

/-- Function `TextByte`. -/
def TextByte (ctx : RequestCtx) (statusCode : Nat) (data : String) : RequestCtx :=
  ((ctx.SetContentType ContentText).SetStatusCode statusCode).Write data

/-- Function `TextString`. -/
def TextString (ctx : RequestCtx) (statusCode : Nat) (data : String) : RequestCtx :=
  ((ctx.SetContentType ContentText).SetStatusCode statusCode).Write data

/-- Method `ctx.Response.Header.ContentType()`. -/
def RequestCtx.ContentType (ctx : RequestCtx) : String :=
  (ctx.response.header.lookup "Content-Type").getD ""

/-- The body the generic structural encoder would write for the value,
whichever path `JSON` takes. -/
def genericBody (data : Data) : String := jsonEncode data.value

/-! ## Concrete inputs used by the closed statements below -/

/-- A backend answer with status 404 and a body. -/
def backendNotFound : Response :=
  { statusCode := 404, header := [("X-Backend", "A")], body := "no such page" }

/-- A backend answer with status 200, a header and a body. -/
def backendHello : Response :=
  { statusCode := 200, header := [("X-Backend", "A")], body := "hello" }

/-- A world in which every dispatch fails at transport level and leaves the
response blank. -/
def backendDown : Upstream :=
  constUpstream { err := some "dial tcp: connection refused", resp := AcquireResponse }

/-- A file whose modification time has a non-zero sub-second part:
2020-01-01 00:00:00.5 UTC. -/
def halfSecondMTime : Time := { sec := 1577836800, nsec := 500000000, zone := "UTC", offset := 0 }

/-- A file whose modification time falls on a whole second: 2020-01-01 00:00:00 UTC. -/
def wholeSecondMTime : Time := { sec := 1577836800, nsec := 0, zone := "UTC", offset := 0 }

/-- A filesystem holding the single file `/srv/static/style.css`. -/
def oneFileFS (mtime : Time) : FileSystem :=
  { Stat := fun p => if p = "/srv/static/style.css" then some { ModTime := mtime } else none
    Open := fun p =>
      if p = "/srv/static/style.css" then some { contents := "body \x7b\x7d", copyErr := false }
      else none }

/-- A MIME table knowing `.css` only. -/
def cssMime (ext : String) : String := if ext = ".css" then "text/css; charset=utf-8" else ""

/-- The environment around `oneFileFS`. -/
def oneFileEnv (mtime : Time) : Env :=
  { fs := oneFileFS mtime, TypeByExtension := cssMime, Local := [] }

/-- A filesystem holding `/etc/passwd` next to the served root `/var/www`. -/
def passwdFS : FileSystem :=
  { Stat := fun p => if p = "/etc/passwd" then some { ModTime := wholeSecondMTime } else none
    Open := fun p =>
      if p = "/etc/passwd" then some { contents := "root:x:0:0", copyErr := false } else none }

/-- A filesystem without any file. -/
def emptyFS : FileSystem := { Stat := fun _ => none, Open := fun _ => none }

/-- A file that stats but cannot be opened. -/
def unreadableFS : FileSystem :=
  { Stat := fun _ => some { ModTime := wholeSecondMTime }, Open := fun _ => none }

/-- The application exactly as `New` returns it. -/
def newApplication (logger : Logger) (router : Router) : Application :=
  { Config := DefaultConfiguration, Logger := logger, Router := router }

/-- An application with both collaborators injected. -/
def wiredApplication : Application :=
  { Config := DefaultConfiguration, Logger := { name := "zap" }, Router := { name := "router" }
    NotFoundHandler := some { name := "notFound" }
    ErrorHandler := some { name := "error" } }

/-- An application configured for TLS with its own certificate chain and key. -/
def tlsApplication : Application :=
  { Config := { DefaultConfiguration with
      TLS := true, ChainPath := "/etc/ssl/chain.pem", KeyPath := "/etc/ssl/key.pem" }
    Logger := { name := "zap" }, Router := { name := "router" } }

/-- Listeners whose cleartext call returns nil at once and whose secure call
serves forever. -/
def cleartextReturnsNil : Listeners :=
  { httpListenAndServe := fun _ => none
    fasthttpListenAndServe := fun _ => some none
    listenAndServeQUIC := fun _ => none }

/-- Listeners that all serve forever. -/
def serveForever : Listeners :=
  { httpListenAndServe := fun _ => none
    fasthttpListenAndServe := fun _ => none
    listenAndServeQUIC := fun _ => none }

/-- A value whose own marshaller writes snake-case member names while the
structural encoder writes the field names. -/
def snakeCaseUser : Data :=
  { value := JVal.obj [("UserName", JVal.str "a")]
    marshalEasyJSON := some "\x7b\"user_name\":\"a\"\x7d" }

/-! ## Lemmas on the pool and the dispatch -/

theorem buildPool_clients (upstreams : List String) :
    (buildPool upstreams).Clients = upstreams.map (fun a => { Addr := a }) := by
  have h : ∀ (l : List String) (acc : LBClient),
      (l.foldl (fun lbc addr => ({ Clients := lbc.Clients ++ [{ Addr := addr }] } : LBClient))
        acc).Clients = acc.Clients ++ l.map (fun a => ({ Addr := a } : HostClient)) := by
    intro l
    induction l with
    | nil => intro acc; simp
    | cons a t ih => intro acc; simp [List.foldl, ih]
  simpa [buildPool] using h upstreams {}

theorem dispatch_some (net : Upstream) (upstreams : List String) (req : Request)
    (resp : Response) (hne : upstreams ≠ []) :
    (buildPool upstreams).Do net req resp = some (net.Do (buildPool upstreams) req resp) := by
  unfold LBClient.Do
  have : (buildPool upstreams).Clients.isEmpty = false := by
    rw [buildPool_clients]
    cases upstreams with
    | nil => exact absurd rfl hne
    | cons a t => rfl
  simp [this]

/-! ## `ReverseProxy` -/

/-- C1: when the dispatch completes without a transport error and the backend
status is not 200, the handler returns with client status exactly 502, and the
client response is the one the context held on entry with only the status
replaced by 502: no header, no body byte and no status of the backend response
is copied into it. -/
theorem C1_non_success_status_gives_bad_gateway (net : Upstream) (upstreams : List String)
    (ctx : RequestCtx) (r : DoResult)
    (hdo : (buildPool upstreams).Do net (AcquireRequest.SetRequestURIBytes ctx.fullURI)
      AcquireResponse = some r)
    (herr : r.err = none) (hcode : r.resp.StatusCode ≠ StatusOK) :
    (ReverseProxy net upstreams ctx).exit = Exit.returned
      ∧ (ReverseProxy net upstreams ctx).clientStatus = 502
      ∧ (ReverseProxy net upstreams ctx).ctx.response
          = { ctx.response with statusCode := StatusBadGateway }
      ∧ (ReverseProxy net upstreams ctx).ctx.response.body = ctx.response.body
      ∧ (ReverseProxy net upstreams ctx).ctx.response.header = ctx.response.header := by
  have hrun : ReverseProxy net upstreams ctx
      = { ctx := (ctx.SetStatusCode StatusBadGateway).Printf
                   (unexpectedStatusLine r.resp.StatusCode)
          dispatched := [(buildPool upstreams, AcquireRequest.SetRequestURIBytes ctx.fullURI)]
          exit := Exit.returned } := by
    simp only [ReverseProxy, hdo, herr, Option.isSome_none, Bool.false_eq_true, if_false,
      if_pos hcode]
  rw [hrun]
  simp [ProxyRun.clientStatus, RequestCtx.SetStatusCode, RequestCtx.Printf, Response.StatusCode,
    StatusBadGateway]

/-- C1 at a pool of one backend that answers 404 with a body. -/
theorem C1_non_success_status_gives_bad_gateway_witness :
    (ReverseProxy (constUpstream { err := none, resp := backendNotFound }) ["A"]
        (freshCtx "http://example.com/missing")).clientStatus = 502
      ∧ (ReverseProxy (constUpstream { err := none, resp := backendNotFound }) ["A"]
        (freshCtx "http://example.com/missing")).ctx.response.body = "" :=
  have h := C1_non_success_status_gives_bad_gateway
    (constUpstream { err := none, resp := backendNotFound }) ["A"]
    (freshCtx "http://example.com/missing") { err := none, resp := backendNotFound }
    (by decide) (by decide) (by decide)
  ⟨h.2.1, h.2.2.2.1⟩

/-- C2 fails at this input: a backend answers 200 with a header and the body
`hello`; the handler returns leaving the client response blank: empty body, no
header, so the backend body and headers are not forwarded. -/
theorem C2_success_response_is_not_forwarded :
    (ReverseProxy (constUpstream { err := none, resp := backendHello }) ["A"]
        (freshCtx "http://example.com/")).exit = Exit.returned
      ∧ (ReverseProxy (constUpstream { err := none, resp := backendHello }) ["A"]
        (freshCtx "http://example.com/")).ctx.response = AcquireResponse
      ∧ (ReverseProxy (constUpstream { err := none, resp := backendHello }) ["A"]
        (freshCtx "http://example.com/")).ctx.response.body ≠ backendHello.body
      ∧ (ReverseProxy (constUpstream { err := none, resp := backendHello }) ["A"]
        (freshCtx "http://example.com/")).ctx.response.header ≠ backendHello.header := by
  decide

/-- C6: on a non-empty pool, when the dispatch returns a transport error the
handler returns with client status 502 and has issued exactly one dispatch,
the one for this request. -/
theorem C6_transport_error_gives_bad_gateway_once (net : Upstream) (upstreams : List String)
    (ctx : RequestCtx) (hne : upstreams ≠ [])
    (herr : (net.Do (buildPool upstreams) (AcquireRequest.SetRequestURIBytes ctx.fullURI)
      AcquireResponse).err ≠ none) :
    (ReverseProxy net upstreams ctx).exit = Exit.returned
      ∧ (ReverseProxy net upstreams ctx).clientStatus = 502
      ∧ (ReverseProxy net upstreams ctx).dispatched.length = 1
      ∧ (ReverseProxy net upstreams ctx).dispatched
          = [(buildPool upstreams, AcquireRequest.SetRequestURIBytes ctx.fullURI)] := by
  have hsome : (net.Do (buildPool upstreams) (AcquireRequest.SetRequestURIBytes ctx.fullURI)
      AcquireResponse).err.isSome = true := by
    cases h : (net.Do (buildPool upstreams) (AcquireRequest.SetRequestURIBytes ctx.fullURI)
      AcquireResponse).err with
    | none => exact absurd h herr
    | some e => rfl
  have hrun : ReverseProxy net upstreams ctx
      = { ctx :=
            if (net.Do (buildPool upstreams) (AcquireRequest.SetRequestURIBytes ctx.fullURI)
                AcquireResponse).resp.StatusCode ≠ StatusOK then
              ((ctx.SetStatusCode StatusBadGateway).SetStatusCode StatusBadGateway).Printf
                (unexpectedStatusLine (net.Do (buildPool upstreams)
                  (AcquireRequest.SetRequestURIBytes ctx.fullURI) AcquireResponse).resp.StatusCode)
            else ctx.SetStatusCode StatusBadGateway
          dispatched := [(buildPool upstreams, AcquireRequest.SetRequestURIBytes ctx.fullURI)]
          exit := Exit.returned } := by
    simp only [ReverseProxy, dispatch_some net upstreams _ _ hne, hsome, if_true]
  rw [hrun]
  refine ⟨rfl, ?_, rfl, rfl⟩
  simp only [ProxyRun.clientStatus]
  split <;> simp [RequestCtx.SetStatusCode, RequestCtx.Printf, Response.StatusCode,
    StatusBadGateway]

/-- C6 at the pool [A, B] with the dispatch failing at transport level. -/
theorem C6_transport_error_gives_bad_gateway_once_witness :
    (["A", "B"] : List String) ≠ []
      ∧ (ReverseProxy backendDown ["A", "B"] (freshCtx "http://example.com/")).clientStatus = 502
      ∧ (ReverseProxy backendDown ["A", "B"] (freshCtx "http://example.com/")).dispatched.length
          = 1 :=
  have h := C6_transport_error_gives_bad_gateway_once backendDown ["A", "B"]
    (freshCtx "http://example.com/") (by decide) (by decide)
  ⟨by decide, h.2.1, h.2.2.1⟩

/-! ## `StaticFolder` -/

theorem cutspace_length_le (l : List Char) : (cutspace l).length ≤ l.length := by
  induction l with
  | nil => exact Nat.le_refl _
  | cons c cs ih =>
    unfold cutspace
    split
    · exact Nat.le_succ_of_le ih
    · exact Nat.le_refl _

/-- The loop of `skip` never runs out of fuel: with at least as much fuel as
the literal has characters, more fuel changes nothing. -/
theorem skipLoop_fuel_enough (fuel : Nat) :
    ∀ (value lit : List Char), lit.length ≤ fuel →
      skipLoop (fuel + 1) value lit = skipLoop fuel value lit := by
  induction fuel with
  | zero =>
    intro value lit h
    cases lit with
    | nil => cases value <;> rfl
    | cons p l => exact absurd h (by simp)
  | succ n ih =>
    intro value lit h
    cases lit with
    | nil => cases value <;> rfl
    | cons p l =>
      have hl : l.length ≤ n := Nat.le_of_succ_le_succ h
      have hc : (cutspace l).length ≤ n := Nat.le_trans (cutspace_length_le l) hl
      cases value with
      | nil =>
        by_cases hp : p = ' '
        · simp only [skipLoop, hp, if_true]
          exact ih [] (cutspace l) hc
        · simp only [skipLoop, hp, if_false]
      | cons c cs =>
        by_cases hp : p = ' '
        · by_cases hcsp : c = ' '
          · simp only [skipLoop, hp, hcsp, if_true, ne_eq, not_true_eq_false, if_false]
            exact ih (cutspace cs) (cutspace l) hc
          · simp only [skipLoop, hp, if_true, ne_eq, hcsp, not_false_eq_true]
        · by_cases hcp : c = p
          · simp only [skipLoop, hp, if_false, hcp, if_true]
            exact ih cs l hl
          · simp only [skipLoop, hp, if_false, hcp]

theorem timeParse_empty (loc : Location) : timeParse loc "" = none := rfl

theorem string_eq_empty_of_length (s : String) (h : ¬ s.length > 0) : s = "" := by
  cases s with
  | mk data =>
    cases data with
    | nil => rfl
    | cons c cs => exact absurd (Nat.succ_pos _) h

/-- The handler on a request whose freshness header matches the file. -/
theorem StaticFolder_match (env : Env) (a : Application) (folderpath : String)
    (cacheTimeSeconds : Nat) (w : ResponseWriter) (r : HttpRequest) (info : FileInfo)
    (ifTime : Time)
    (hstat : env.fs.Stat (pathJoin folderpath r.RawPath) = some info)
    (hparse : timeParse env.Local (r.HeaderGet "If-Modified-Since") = some ifTime)
    (heq : info.ModTime.Equal ifTime = true) :
    StaticFolder env a folderpath cacheTimeSeconds w r
      = { w := (w.HeaderAdd "Cache-Control"
                  ("max-age=" ++ FormatUint cacheTimeSeconds)).WriteHeader StatusNotModified
          trace := [Event.stat (pathJoin folderpath r.RawPath)]
          exit := Exit.returned } := by
  have hlen : (r.HeaderGet "If-Modified-Since").length > 0 := by
    by_contra hcon
    rw [string_eq_empty_of_length _ hcon, timeParse_empty] at hparse
    exact Option.noConfusion hparse
  simp only [StaticFolder, hstat, hparse, heq, hlen, if_true]

/-- The handler on a request whose freshness header does not match the file:
it goes on to serve the file from the writer that carries Cache-Control. -/
theorem StaticFolder_no_match (env : Env) (a : Application) (folderpath : String)
    (cacheTimeSeconds : Nat) (w : ResponseWriter) (r : HttpRequest) (info : FileInfo)
    (hstat : env.fs.Stat (pathJoin folderpath r.RawPath) = some info)
    (hno : r.HeaderGet "If-Modified-Since" = ""
      ∨ timeParse env.Local (r.HeaderGet "If-Modified-Since") = none
      ∨ ∃ ifTime, timeParse env.Local (r.HeaderGet "If-Modified-Since") = some ifTime
          ∧ info.ModTime.Equal ifTime = false) :
    StaticFolder env a folderpath cacheTimeSeconds w r
      = serveFile env a (pathJoin folderpath r.RawPath) info
          (w.HeaderAdd "Cache-Control" ("max-age=" ++ FormatUint cacheTimeSeconds)) r := by
  have hnone : r.HeaderGet "If-Modified-Since" = ""
      → timeParse env.Local (r.HeaderGet "If-Modified-Since") = none := by
    intro h
    rw [h]
    exact timeParse_empty _
  simp only [StaticFolder, hstat]
  rcases hno with h | h | ⟨t, ht, hne⟩
  · rw [hnone h]; split <;> rfl
  · rw [h]; split <;> rfl
  · rw [ht]
    simp only [hne, Bool.false_eq_true, if_false]
    split <;> rfl

/-- The writer `serveFile` stops with keeps the header list it built before
opening the file. -/
theorem serveFile_header (env : Env) (a : Application) (filepath : String) (stat : FileInfo)
    (w : ResponseWriter) (r : HttpRequest) :
    (serveFile env a filepath stat w r).w.header
      = (if (env.TypeByExtension (pathExt r.RawPath)).length > 0 then
           w.header ++ [("Content-Type", env.TypeByExtension (pathExt r.RawPath))]
         else w.header) ++ [("Last-Modified", stat.ModTime.Format)] := by
  have hwrite : ∀ (w0 : ResponseWriter) (data : String),
      (if data = "" then w0 else w0.Write data).header = w0.header := by
    intro w0 data
    split
    · rfl
    · simp only [ResponseWriter.Write, ResponseWriter.WriteHeader]
      split <;> rfl
  have hserve : ∀ (h : Option HandlerFunc) (w0 : ResponseWriter) (tr : List Event),
      (ServeHTTP h w0 r tr).w = w0 := by
    intro h w0 tr
    cases h <;> rfl
  have hadd : ∀ (m : String), ((if m.length > 0 then w.HeaderAdd "Content-Type" m else w).HeaderAdd
        "Last-Modified" stat.ModTime.Format).header
      = (if m.length > 0 then w.header ++ [("Content-Type", m)] else w.header)
          ++ [("Last-Modified", stat.ModTime.Format)] := by
    intro m
    split <;> rfl
  rw [← hadd]
  unfold serveFile
  cases hopen : env.fs.Open filepath with
  | none => exact congrArg ResponseWriter.header (hserve _ _ _)
  | some file =>
    cases hc : file.copyErr
    · simp only [hc, Bool.false_eq_true, if_false]
      exact hwrite _ _
    · simp only [hc, if_true]
      exact (congrArg ResponseWriter.header (hserve _ _ _)).trans (hwrite _ _)

/-- C3: for an existing file and a request whose If-Modified-Since header
parses to an instant equal to the file's modification time, the handler
returns with status 304, an empty body and no Content-Type header, and never
opens a file. -/
theorem C3_matching_freshness_header_gives_not_modified (env : Env) (a : Application)
    (folderpath : String) (cacheTimeSeconds : Nat) (r : HttpRequest) (info : FileInfo)
    (ifTime : Time)
    (hstat : env.fs.Stat (pathJoin folderpath r.RawPath) = some info)
    (hparse : timeParse env.Local (r.HeaderGet "If-Modified-Since") = some ifTime)
    (heq : info.ModTime.Equal ifTime = true) :
    (StaticFolder env a folderpath cacheTimeSeconds newResponseWriter r).exit = Exit.returned
      ∧ (StaticFolder env a folderpath cacheTimeSeconds newResponseWriter r).w.status = some 304
      ∧ (StaticFolder env a folderpath cacheTimeSeconds newResponseWriter r).w.clientStatus = 304
      ∧ (StaticFolder env a folderpath cacheTimeSeconds newResponseWriter r).w.body = ""
      ∧ (StaticFolder env a folderpath cacheTimeSeconds newResponseWriter r).w.HeaderValues
          "Content-Type" = []
      ∧ ∀ p, Event.openFile p ∉
          (StaticFolder env a folderpath cacheTimeSeconds newResponseWriter r).trace := by
  rw [StaticFolder_match env a folderpath cacheTimeSeconds newResponseWriter r info ifTime
    hstat hparse heq]
  refine ⟨rfl, rfl, rfl, rfl, ?_, ?_⟩
  · simp [ResponseWriter.HeaderValues, ResponseWriter.WriteHeader, ResponseWriter.HeaderAdd,
      newResponseWriter]
  · intro p hp
    simp at hp

/-- C3 at the file `/srv/static/style.css` with a whole-second modification time. -/
theorem C3_matching_freshness_header_gives_not_modified_witness :
    (StaticFolder (oneFileEnv wholeSecondMTime) wiredApplication "/srv/static" 3600
        newResponseWriter
        { RawPath := "/style.css"
          Header := [("If-Modified-Since", "Wed, 1 Jan 2020 00:00:00 UTC")] }).w.status = some 304
      ∧ (StaticFolder (oneFileEnv wholeSecondMTime) wiredApplication "/srv/static" 3600
        newResponseWriter
        { RawPath := "/style.css"
          Header := [("If-Modified-Since", "Wed, 1 Jan 2020 00:00:00 UTC")] }).w.body = "" :=
  have h := C3_matching_freshness_header_gives_not_modified (oneFileEnv wholeSecondMTime)
    wiredApplication "/srv/static" 3600
    { RawPath := "/style.css", Header := [("If-Modified-Since", "Wed, 1 Jan 2020 00:00:00 UTC")] }
    { ModTime := wholeSecondMTime } wholeSecondMTime (by decide) (by decide) (by decide)
  ⟨h.2.1, h.2.2.2.1⟩

/-- Without a matching freshness header, the header map the handler leaves
carries exactly one Cache-Control value, `max-age=` followed by the decimal
cacheTimeSeconds, and exactly one Last-Modified value, the modification time in
the fixed layout (on every exit, a panic included). -/
theorem StaticFolder_header_map_without_matching_freshness (env : Env) (a : Application)
    (folderpath : String) (cacheTimeSeconds : Nat) (r : HttpRequest) (info : FileInfo)
    (hstat : env.fs.Stat (pathJoin folderpath r.RawPath) = some info)
    (hno : r.HeaderGet "If-Modified-Since" = ""
      ∨ timeParse env.Local (r.HeaderGet "If-Modified-Since") = none
      ∨ ∃ ifTime, timeParse env.Local (r.HeaderGet "If-Modified-Since") = some ifTime
          ∧ info.ModTime.Equal ifTime = false) :
    (StaticFolder env a folderpath cacheTimeSeconds newResponseWriter r).w.HeaderValues
        "Cache-Control" = ["max-age=" ++ FormatUint cacheTimeSeconds]
      ∧ (StaticFolder env a folderpath cacheTimeSeconds newResponseWriter r).w.HeaderValues
        "Last-Modified" = [info.ModTime.Format] := by
  rw [StaticFolder_no_match env a folderpath cacheTimeSeconds newResponseWriter r info hstat hno]
  simp only [ResponseWriter.HeaderValues, serveFile_header]
  constructor <;> split <;>
    simp [ResponseWriter.HeaderAdd, newResponseWriter, List.filter]

/-- Serving the file ends in a return whenever the error collaborator is set,
and whenever the file opens and is copied without error. -/
theorem serveFile_returns (env : Env) (a : Application) (filepath : String) (stat : FileInfo)
    (w : ResponseWriter) (r : HttpRequest)
    (hok : a.ErrorHandler.isSome = true
      ∨ ∃ file, env.fs.Open filepath = some file ∧ file.copyErr = false) :
    (serveFile env a filepath stat w r).exit = Exit.returned := by
  unfold serveFile
  rcases hok with hE | ⟨file, hopen, hc⟩
  · cases hEh : a.ErrorHandler with
    | none => rw [hEh] at hE; exact absurd hE (by decide)
    | some h =>
      cases hopen : env.fs.Open filepath with
      | none => rfl
      | some file =>
        cases hc : file.copyErr
        · simp only [hc, Bool.false_eq_true, if_false]
        · simp only [hc, if_true]
          rfl
  · simp only [hopen, hc, Bool.false_eq_true, if_false]

/-- Without a matching freshness header, and with the error collaborator set or
the file opening and copying without error, the handler returns and the
response carries exactly one Cache-Control value, `max-age=` followed by the
decimal cacheTimeSeconds, and exactly one Last-Modified value, the
modification time in the fixed layout. -/
theorem StaticFolder_cache_headers_on_return (env : Env) (a : Application)
    (folderpath : String) (cacheTimeSeconds : Nat) (r : HttpRequest) (info : FileInfo)
    (hstat : env.fs.Stat (pathJoin folderpath r.RawPath) = some info)
    (hno : r.HeaderGet "If-Modified-Since" = ""
      ∨ timeParse env.Local (r.HeaderGet "If-Modified-Since") = none
      ∨ ∃ ifTime, timeParse env.Local (r.HeaderGet "If-Modified-Since") = some ifTime
          ∧ info.ModTime.Equal ifTime = false)
    (hok : a.ErrorHandler.isSome = true
      ∨ ∃ file, env.fs.Open (pathJoin folderpath r.RawPath) = some file ∧ file.copyErr = false) :
    (StaticFolder env a folderpath cacheTimeSeconds newResponseWriter r).exit = Exit.returned
      ∧ (StaticFolder env a folderpath cacheTimeSeconds newResponseWriter r).w.HeaderValues
        "Cache-Control" = ["max-age=" ++ FormatUint cacheTimeSeconds]
      ∧ (StaticFolder env a folderpath cacheTimeSeconds newResponseWriter r).w.HeaderValues
        "Last-Modified" = [info.ModTime.Format] := by
  refine ⟨?_, StaticFolder_header_map_without_matching_freshness env a folderpath
    cacheTimeSeconds r info hstat hno⟩
  rw [StaticFolder_no_match env a folderpath cacheTimeSeconds newResponseWriter r info hstat hno]
  exact serveFile_returns env a _ info _ r hok

/-- C4 fails at this input: on the application exactly as `New` returns it, a
request without freshness header for a file that stats and cannot be opened
makes the handler panic at the nil ErrorHandler before anything is written
(no status, no body, no collaborator invoked), so no response carrying
Cache-Control and Last-Modified is sent; with the collaborators injected the
same request returns and the error collaborator receives a writer that carries
both headers. -/
theorem C4_open_failure_on_new_application_sends_no_headers :
    unreadableFS.Stat (pathJoin "/srv/static" "/style.css")
        = some { ModTime := wholeSecondMTime }
      ∧ ({ RawPath := "/style.css" } : HttpRequest).HeaderGet "If-Modified-Since" = ""
      ∧ (StaticFolder { fs := unreadableFS, TypeByExtension := cssMime }
          (newApplication { name := "zap" } { name := "router" }) "/srv/static" 3600
          newResponseWriter { RawPath := "/style.css" }).exit = Exit.panicked
      ∧ (StaticFolder { fs := unreadableFS, TypeByExtension := cssMime }
          (newApplication { name := "zap" } { name := "router" }) "/srv/static" 3600
          newResponseWriter { RawPath := "/style.css" }).w.status = none
      ∧ (StaticFolder { fs := unreadableFS, TypeByExtension := cssMime }
          (newApplication { name := "zap" } { name := "router" }) "/srv/static" 3600
          newResponseWriter { RawPath := "/style.css" }).w.body = ""
      ∧ (StaticFolder { fs := unreadableFS, TypeByExtension := cssMime }
          (newApplication { name := "zap" } { name := "router" }) "/srv/static" 3600
          newResponseWriter { RawPath := "/style.css" }).trace
          = [Event.stat "/srv/static/style.css", Event.openFile "/srv/static/style.css"]
      ∧ StaticFolder { fs := unreadableFS, TypeByExtension := cssMime } wiredApplication
          "/srv/static" 3600 newResponseWriter { RawPath := "/style.css" }
        = { w := { header := [("Cache-Control", "max-age=3600"),
                              ("Content-Type", "text/css; charset=utf-8"),
                              ("Last-Modified", "Wed, 1 Jan 2020 00:00:00 UTC")]
                   status := none
                   body := "" }
            trace := [Event.stat "/srv/static/style.css",
                      Event.openFile "/srv/static/style.css",
                      Event.serveHTTP { name := "error" }
                        { header := [("Cache-Control", "max-age=3600"),
                                     ("Content-Type", "text/css; charset=utf-8"),
                                     ("Last-Modified", "Wed, 1 Jan 2020 00:00:00 UTC")]
                          status := none
                          body := "" }
                        { RawPath := "/style.css" }]
            exit := Exit.returned } := by
  decide

/-- C5 fails at this input: the file's modification time is 2020-01-01
00:00:00.5 UTC.  The first request, without freshness header, is answered with
Last-Modified `Wed, 1 Jan 2020 00:00:00 UTC`; that text parses to the whole
second, which is not equal to the modification time, so the second request,
carrying it as If-Modified-Since, is answered with status 200 and the whole
file instead of 304 and an empty body. -/
theorem C5_subsecond_mtime_defeats_round_trip :
    (StaticFolder (oneFileEnv halfSecondMTime) wiredApplication "/srv/static" 3600
        newResponseWriter { RawPath := "/style.css" }).w.HeaderValues "Last-Modified"
        = ["Wed, 1 Jan 2020 00:00:00 UTC"]
      ∧ timeParse [] "Wed, 1 Jan 2020 00:00:00 UTC" = some wholeSecondMTime
      ∧ halfSecondMTime.Equal wholeSecondMTime = false
      ∧ (StaticFolder (oneFileEnv halfSecondMTime) wiredApplication "/srv/static" 3600
          newResponseWriter
          { RawPath := "/style.css"
            Header := [("If-Modified-Since", "Wed, 1 Jan 2020 00:00:00 UTC")] }).w.status
          = some 200
      ∧ (StaticFolder (oneFileEnv halfSecondMTime) wiredApplication "/srv/static" 3600
          newResponseWriter
          { RawPath := "/style.css"
            Header := [("If-Modified-Since", "Wed, 1 Jan 2020 00:00:00 UTC")] }).w.body
          = "body \x7b\x7d"
      ∧ (StaticFolder (oneFileEnv halfSecondMTime) wiredApplication "/srv/static" 3600
          newResponseWriter
          { RawPath := "/style.css"
            Header := [("If-Modified-Since", "Wed, 1 Jan 2020 00:00:00 UTC")] }).trace
          = [Event.stat "/srv/static/style.css", Event.openFile "/srv/static/style.css",
             Event.closeFile "/srv/static/style.css"] := by
  decide

/-- C7 fails at this input: on the application exactly as `New` returns it, whose
NotFoundHandler and ErrorHandler are nil, a request for a path that cannot be
stat'ed makes the handler panic without any collaborator having been invoked,
and so does a request for a file that stats and cannot be opened. -/
theorem C7_new_application_panics_on_file_errors (logger : Logger) (router : Router)
    (folderpath : String) (cacheTimeSeconds : Nat) (r : HttpRequest) :
    New (Except.ok logger) router = Except.ok (newApplication logger router)
      ∧ StaticFolder { fs := emptyFS, TypeByExtension := cssMime } (newApplication logger router)
          folderpath cacheTimeSeconds newResponseWriter r
        = { w := newResponseWriter, trace := [Event.stat (pathJoin folderpath r.RawPath)],
            exit := Exit.panicked }
      ∧ (StaticFolder { fs := unreadableFS, TypeByExtension := cssMime }
          (newApplication logger router) folderpath cacheTimeSeconds newResponseWriter
          { RawPath := r.RawPath }).exit = Exit.panicked
      ∧ (StaticFolder { fs := unreadableFS, TypeByExtension := cssMime }
          (newApplication logger router) folderpath cacheTimeSeconds newResponseWriter
          { RawPath := r.RawPath }).trace
        = [Event.stat (pathJoin folderpath r.RawPath),
           Event.openFile (pathJoin folderpath r.RawPath)] := by
  refine ⟨rfl, rfl, ?_, ?_⟩ <;> rfl

theorem serveFile_trace_head (env : Env) (a : Application) (filepath : String) (stat : FileInfo)
    (w : ResponseWriter) (r : HttpRequest) :
    (serveFile env a filepath stat w r).trace.head? = some (Event.stat filepath) := by
  unfold serveFile
  cases hopen : env.fs.Open filepath with
  | none => cases hE : a.ErrorHandler <;> simp [ServeHTTP, hE]
  | some file =>
    cases hc : file.copyErr <;> cases hE : a.ErrorHandler <;> simp [ServeHTTP, hc, hE]

/-- C10: the first thing the handler does is to stat
`path.Join(folderpath, r.URL.RawPath)`, whatever that path is; and for the root
`/var/www` and the raw path `/../../etc/passwd`, which has `..` segments, the
joined path is `/etc/passwd`, neither the root nor below it, and the handler
stats it, opens it and streams it with status 200, invoking no collaborator. -/
theorem C10_joined_path_is_not_confined :
    (∀ (env : Env) (a : Application) (folderpath : String) (cacheTimeSeconds : Nat)
        (w : ResponseWriter) (r : HttpRequest),
        (StaticFolder env a folderpath cacheTimeSeconds w r).trace.head?
          = some (Event.stat (pathJoin folderpath r.RawPath)))
      ∧ ['.', '.'] ∈ splitSlash "/../../etc/passwd".data
      ∧ pathJoin "/var/www" "/../../etc/passwd" = "/etc/passwd"
      ∧ confined "/var/www" (pathJoin "/var/www" "/../../etc/passwd") = false
      ∧ StaticFolder { fs := passwdFS, TypeByExtension := cssMime } wiredApplication "/var/www"
          3600 newResponseWriter { RawPath := "/../../etc/passwd" }
        = { w := { header := [("Cache-Control", "max-age=3600"),
                              ("Last-Modified", "Wed, 1 Jan 2020 00:00:00 UTC")]
                   status := some 200
                   body := "root:x:0:0" }
            trace := [Event.stat "/etc/passwd", Event.openFile "/etc/passwd",
                      Event.closeFile "/etc/passwd"]
            exit := Exit.returned } := by
  refine ⟨?_, by decide, by decide, by decide, by decide⟩
  intro env a folderpath cacheTimeSeconds w r
  cases hstat : env.fs.Stat (pathJoin folderpath r.RawPath) with
  | none =>
    simp only [StaticFolder, hstat]
    cases hN : a.NotFoundHandler <;> simp [ServeHTTP]
  | some info =>
    simp only [StaticFolder, hstat]
    split
    · split
      · split
        · rfl
        · exact serveFile_trace_head _ _ _ _ _ _
      · exact serveFile_trace_head _ _ _ _ _ _
    · exact serveFile_trace_head _ _ _ _ _ _

/-! ## `Application.Run` -/

/-- C8 fails at this input: with TLS on, ChainPath `/etc/ssl/chain.pem` and
KeyPath `/etc/ssl/key.pem`, every run starts the cleartext listener on
`0.0.0.0:8080` and no run starts a secure listener with the configured chain
and key: when the cleartext listener returns nil the secure listener is started
with the literals `/path/to/cert/chain.pem` and `/path/to/privkey.pem`, and
while the cleartext listener keeps serving it is not started at all. -/
theorem C8_secure_listener_ignores_configured_paths :
    tlsApplication.Config.TLS = true
      ∧ (∀ net : Listeners,
          startsCleartext (tlsApplication.Run net) "0.0.0.0:8080" tlsApplication.Router = true)
      ∧ (∀ net : Listeners, startsSecure (tlsApplication.Run net) "0.0.0.0:8443"
            tlsApplication.Config.ChainPath tlsApplication.Config.KeyPath tlsApplication.Router
          = false)
      ∧ (tlsApplication.Run cleartextReturnsNil).trace
          = [RunEvent.logInfo "Starting Server",
             RunEvent.fasthttpListenAndServe "0.0.0.0:8080"
               (ServedHandler.routerHandler tlsApplication.Router),
             RunEvent.listenAndServeQUIC "0.0.0.0:8443" "/path/to/cert/chain.pem"
               "/path/to/privkey.pem" (ServedHandler.adapted tlsApplication.Router)]
      ∧ (tlsApplication.Run serveForever).trace
          = [RunEvent.logInfo "Starting Server",
             RunEvent.fasthttpListenAndServe "0.0.0.0:8080"
               (ServedHandler.routerHandler tlsApplication.Router)] := by
  have hcfg : tlsApplication.Config.TLS = true := rfl
  refine ⟨rfl, ?_, ?_, by decide, by decide⟩
  · intro net
    unfold Application.Run
    simp only [hcfg, Bool.true_eq_false, if_false]
    split
    · rfl
    · rfl
    · split <;> rfl
  · intro net
    unfold Application.Run
    simp only [hcfg, Bool.true_eq_false, if_false]
    split
    · rfl
    · rfl
    · split <;> rfl

/-! ## `JSON` -/

theorem lookup_after_SetContentType (hdr : List (String × String)) (ct : String) :
    (hdr.filter (fun kv => kv.1 != "Content-Type") ++ [("Content-Type", ct)]).lookup
      "Content-Type" = some ct := by
  induction hdr with
  | nil => simp [List.lookup]
  | cons kv t ih =>
    by_cases h : kv.1 = "Content-Type"
    · have h1 : (kv.1 != "Content-Type") = false := by simp [h]
      rw [List.filter_cons, h1]
      simpa using ih
    · have h1 : (kv.1 != "Content-Type") = true := by simp [h]
      have h2 : ("Content-Type" == kv.1) = false := by
        simp only [beq_eq_false_iff_ne, ne_eq]
        exact fun e => h e.symm
      rw [List.filter_cons, h1]
      obtain ⟨k, v⟩ := kv
      simp only [if_true, List.cons_append, List.lookup]
      simp only at h2
      rw [h2]
      exact ih

/-- C9 fails at this input: a value whose type implements the marshaller and
whose marshaller writes snake-case member names.  `JSON` writes the
marshaller's text; it decodes to an object with member `user_name`, while the
text the generic encoder would write decodes to an object with member
`UserName`: the two documents do not decode to equal values. -/
theorem C9_fast_path_can_disagree_with_generic_encoder :
    snakeCaseUser.marshalEasyJSON.isSome = true
      ∧ jsonDecode (JSON (freshCtx "http://example.com/user") 200 snakeCaseUser).response.body
          = some (JVal.obj [("user_name", JVal.str "a")])
      ∧ jsonDecode (genericBody snakeCaseUser) = some (JVal.obj [("UserName", JVal.str "a")])
      ∧ jsonDecode (JSON (freshCtx "http://example.com/user") 200 snakeCaseUser).response.body
          ≠ jsonDecode (genericBody snakeCaseUser) := by
  have h1 : jsonDecode (JSON (freshCtx "http://example.com/user") 200 snakeCaseUser).response.body
      = some (JVal.obj [("user_name", JVal.str "a")]) := by rfl
  have h2 : jsonDecode (genericBody snakeCaseUser)
      = some (JVal.obj [("UserName", JVal.str "a")]) := by rfl
  refine ⟨rfl, h1, h2, ?_⟩
  rw [h1, h2]
  intro h
  injection h with h
  injection h with h
  injection h with h _
  injection h with h _
  exact absurd h (by decide)

/-- C9 as it holds of the code: `JSON` sets the content type `application/json` and the
given status code whichever path it takes, and the path depends on the
capability alone: the body is the text the value's own marshaller writes when
the value has one, and the text of the generic encoder otherwise. -/
theorem C9_json_body_is_chosen_by_capability (ctx : RequestCtx) (statusCode : Nat)
    (data : Data) :
    (JSON ctx statusCode data).ContentType = ContentJSON
      ∧ (JSON ctx statusCode data).response.statusCode = statusCode
      ∧ (JSON ctx statusCode data).response.body
          = data.marshalEasyJSON.getD (genericBody data) := by
  refine ⟨?_, rfl, ?_⟩
  · simp only [JSON, RequestCtx.ContentType, RequestCtx.SetBodyStreamWriter,
      RequestCtx.SetStatusCode, RequestCtx.SetContentType]
    rw [lookup_after_SetContentType]
    rfl
  · simp only [JSON, RequestCtx.SetBodyStreamWriter, jsonBodyWriter, genericBody]
    cases data.marshalEasyJSON <;> rfl

/-- With the not-found collaborator injected, a path that cannot be stat'ed is
delegated to it exactly once, with the untouched writer and this request. -/
theorem StaticFolder_stat_failure_delegates (env : Env) (a : Application) (h : HandlerFunc)
    (folderpath : String) (cacheTimeSeconds : Nat) (w : ResponseWriter) (r : HttpRequest)
    (hN : a.NotFoundHandler = some h)
    (hstat : env.fs.Stat (pathJoin folderpath r.RawPath) = none) :
    StaticFolder env a folderpath cacheTimeSeconds w r
      = { w := w
          trace := [Event.stat (pathJoin folderpath r.RawPath), Event.serveHTTP h w r]
          exit := Exit.returned } := by
  simp [StaticFolder, hstat, ServeHTTP, hN]

end OptiServer
